import Mathlib

/-!
Shallow embedding of the Manifold provisioning pipeline (TypeScript sources:
auth module, provision.ts, deploy.ts, state.ts, manifold.ts) together with
theorems checking the specification claims against it.

External effects (child processes, HTTP requests) are modelled by oracles:
a process execution reads the next `CommandResult` from a response list, an
HTTP probe is a `ProbeResponse` value.  String-processing primitives of the
sources (trim, toLowerCase, split, regular-expression tests) are implemented
structurally over the character list of a `String` so that every definition
is executable by the kernel.
-/

/-- Character-list prefix test: `isSubListAt l p` holds when `p` is a prefix of `l`. -/
def isSubListAt : List Char → List Char → Bool
  | _, [] => true
  | [], _ :: _ => false
  | c :: cs, p :: ps => c = p && isSubListAt cs ps

/-- Substring containment on character lists, used to embed the literal
regular-expression tests of the sources (all tested patterns are literals). -/
def containsL : List Char → List Char → Bool
  | [], pat => pat.isEmpty
  | c :: cs, pat => isSubListAt (c :: cs) pat || containsL cs pat

/-- Embeds a JavaScript `regex.test(s)` for a literal pattern `pat`. -/
def containsSub (s pat : String) : Bool := containsL s.data pat.data

/-- Embeds `String.prototype.startsWith`. -/
def strStartsWith (s p : String) : Bool := isSubListAt s.data p.data

def trimLeftL (l : List Char) : List Char := l.dropWhile Char.isWhitespace

/-- Embeds `String.prototype.trim` (whitespace stripped from both ends). -/
def strTrim (s : String) : String :=
  String.mk ((trimLeftL ((trimLeftL s.data.reverse)).reverse))

/-- Embeds `String.prototype.toLowerCase` for the ASCII strings of the sources. -/
def strLower (s : String) : String := String.mk (s.data.map Char.toLower)

def splitLinesL (l : List Char) : List (List Char) :=
  l.foldr (fun c acc =>
    match acc with
    | [] => if c = '\n' then [[], []] else [[c]]
    | cur :: rest => if c = '\n' then [] :: cur :: rest else (c :: cur) :: rest) [[]]

/-- Embeds `s.split(/\r?\n/)`: the split is on the newline character and a
carriage return left at the end of a line is removed by the `trim` that every
caller in the sources applies to the pieces. -/
def strLines (s : String) : List String := (splitLinesL s.data).map String.mk

/-- Embeds the case-insensitive flag of a regular expression: both sides lowered. -/
def containsCI (s pat : String) : Bool := containsSub (strLower s) (strLower pat)

def dquote : Char := Char.ofNat 34

def bslash : Char := Char.ofNat 92

/-- Character class of the quoting regex `^[a-zA-Z0-9._:/\\-]+$` in the sources
(auth module, provision.ts, deploy.ts, start.ts): the escaped `\\` inside the
class makes the backslash itself an allowed character. -/
def allowedArgChar (c : Char) : Bool :=
  ('a' ≤ c && c ≤ 'z') || ('A' ≤ c && c ≤ 'Z') || ('0' ≤ c && c ≤ '9') ||
    c = '.' || c = '_' || c = ':' || c = '/' || c = bslash || c = '-'

/-- Modelled from the spec: the character class `[-A-Za-z0-9._:/]` (written in
the spec with the dash last) exactly as the specification text states it, i.e.
without a backslash.  Used only to compare the specified class against
`allowedArgChar`, which embeds the source regex. -/
def specArgClass (c : Char) : Bool :=
  ('a' ≤ c && c ≤ 'z') || ('A' ≤ c && c ≤ 'Z') || ('0' ≤ c && c ≤ '9') ||
    c = '.' || c = '_' || c = ':' || c = '/' || c = '-'

def escapeQuotesL : List Char → List Char
  | [] => []
  | c :: cs => if c = dquote then bslash :: dquote :: escapeQuotesL cs else c :: escapeQuotesL cs

/-- Embeds `arg.replace(/"/g, "\\\"")`: every double quote becomes backslash-quote. -/
def escapeQuotes (s : String) : String := String.mk (escapeQuotesL s.data)

/-- Embeds `quoteArg` (identical copies in the auth module, provision.ts,
deploy.ts and start.ts): an argument matching `^[a-zA-Z0-9._:/\\-]+$` passes
through, anything else is wrapped in double quotes with inner quotes escaped. -/
def quoteArg (arg : String) : String :=
  if !arg.data.isEmpty && arg.data.all allowedArgChar then arg
  else String.mk (dquote :: (escapeQuotes arg).data ++ [dquote])

/-- Embeds the command-line assembly in `run`:
the command followed by the quoted arguments, trimmed. -/
def commandLine (cmd : String) (args : List String) : String :=
  strTrim (cmd ++ " " ++ String.intercalate " " (args.map quoteArg))

/-- Outcome of one HTTP probe in `verifySupabaseProjectApi`: either a network
error (the request `error` event) or a response with status and body snippet. -/
inductive ProbeResponse where
  | err (message : String)
  | resp (status : Nat) (snippet : String)
deriving DecidableEq, Repr

/-- One probe request issued by `requestOnce`: its path and whether the
`Authorization: Bearer` header is attached. -/
structure ProbeRequest where
  path : String
  withAuthorization : Bool
deriving DecidableEq, Repr

/-- Result shape `AuthCheckResult` of the auth module. -/
structure AuthCheckResult where
  ok : Bool
  output : String
deriving DecidableEq, Repr

def is2xx (status : Nat) : Bool := 200 ≤ status && status < 300

def isAuthRejectStatus (status : Nat) : Bool := status = 401 || status = 403

/-- First probe of the cascade: `/auth/v1/settings`, apikey header only. -/
def settingsProbe : ProbeRequest := { path := "/auth/v1/settings", withAuthorization := false }

/-- Second probe of the cascade: `/rest/v1/` with the bearer authorization header. -/
def restProbe : ProbeRequest := { path := "/rest/v1/", withAuthorization := true }

/-- Embeds `verifySupabaseProjectApi` after URL parsing: given the oracle
responses of the two possible probes, returns the verification result together
with the list of probes actually issued (in order). -/
def verifySupabaseProjectApi (primary fallback : ProbeResponse) :
    AuthCheckResult × List ProbeRequest :=
  match primary with
  | .err m =>
    ({ ok := false, output := "Supabase Project API request failed: " ++ m }, [settingsProbe])
  | .resp st sn =>
    if is2xx st then
      ({ ok := true, output := "Supabase Project URL and Publishable API Key verified." },
        [settingsProbe])
    else if !isAuthRejectStatus st then
      ({ ok := true,
         output := "Supabase project endpoint reachable and key accepted for gateway access." },
        [settingsProbe])
    else
      match fallback with
      | .err m =>
        ({ ok := false, output := "Supabase Project API request failed: " ++ m },
          [settingsProbe, restProbe])
      | .resp st2 sn2 =>
        if is2xx st2 then
          ({ ok := true, output := "Supabase Project URL and Publishable API Key verified." },
            [settingsProbe, restProbe])
        else if !isAuthRejectStatus st2 then
          ({ ok := true,
             output := "Supabase project endpoint reachable and key accepted for gateway access." },
            [settingsProbe, restProbe])
        else
          let reason :=
            if sn2 ≠ "" then sn2
            else if sn ≠ "" then sn
            else "HTTP " ++ toString (if st2 ≠ 0 then st2 else st)
          ({ ok := false, output := "Supabase Project API verification failed: " ++ reason },
            [settingsProbe, restProbe])

/-- True when the probe ended in a network error (request error event). -/
def probeNetworkError : ProbeResponse → Bool
  | .err _ => true
  | .resp _ _ => false

/-- True when the probe got an HTTP response that the cascade treats as an
authorization rejection: not 2xx and status 401 or 403. -/
def probeAuthRejected : ProbeResponse → Bool
  | .err _ => false
  | .resp st _ => !is2xx st && isAuthRejectStatus st

/-- Error categories of `DeploymentError.type` in deploy.ts. -/
inductive DeployErrorKind where
  | env
  | build
  | config
  | network
  | unknown
deriving DecidableEq, Repr

/-- Embeds the `DeploymentError` record of deploy.ts. -/
structure DeploymentError where
  line : String
  type : DeployErrorKind
  suggestion : String
deriving DecidableEq, Repr

/-- Disjunction of literal patterns, embedding an alternation regex test. -/
def containsAny (s : String) (pats : List String) : Bool :=
  pats.any (fun p => containsSub s p)

/-- Failure keywords of the gating test in `parseDeploymentLog`. -/
def baseFailureKeywords : List String :=
  ["error", "failed", "cannot find", "not found", "enoent"]

/-- Extended failure keywords of the line filter in `parseDeploymentLog`. -/
def extendedFailureKeywords : List String :=
  baseFailureKeywords ++ ["missing", "undefined", "null"]

/-- Embeds the per-line classification cascade of `parseDeploymentLog`:
first matching keyword group wins, default category unknown. -/
def classifyLine (line : String) : DeploymentError :=
  let l := strLower line
  if containsAny l ["env", "environment", "secret", "api_key", "api-key"] then
    { line := line, type := .env,
      suggestion := "Check that all required environment variables are set in Vercel project settings." }
  else if containsAny l ["build", "compile", "syntax", "npm", "python", "module", "package"] then
    { line := line, type := .build,
      suggestion := "Run `npm run build` or `pip install` locally to debug build issues." }
  else if containsAny l ["config", "vercel.json", "next.config"] then
    { line := line, type := .config,
      suggestion := "Check your project configuration files (vercel.json, package.json, etc.)." }
  else if containsAny l ["timeout", "econnrefused", "network", "dns", "connection"] then
    { line := line, type := .network,
      suggestion := "Check network connectivity and firewall rules for external API calls." }
  else
    { line := line, type := .unknown,
      suggestion := "Review the logs above and fix the issue, then redeploy." }

/-- Embeds `parseDeploymentLog` of deploy.ts: when the joined lowercased text
contains a base failure keyword, the first five lines containing an extended
failure keyword are classified; otherwise no errors are reported. -/
def parseDeploymentLog (logs : List String) : List DeploymentError :=
  let text := strLower (String.intercalate "\n" logs)
  if containsAny text baseFailureKeywords then
    ((logs.filter (fun line => containsAny (strLower line) extendedFailureKeywords)).take 5).map
      classifyLine
  else []

def lowerEqChar (a b : Char) : Bool := a.toLower = b.toLower

/-- Case-insensitive prefix test on character lists. -/
def startsWithCI : List Char → List Char → Bool
  | _, [] => true
  | [], _ :: _ => false
  | c :: cs, p :: ps => lowerEqChar c p && startsWithCI cs ps

/-- Character class `[a-z0-9-]` under the case-insensitive flag. -/
def hostNameChar (c : Char) : Bool := c.isAlpha || c.isDigit || c = '-'

/-- Embeds the leftmost match of `([a-z0-9-]+\.<suffix>)` (case-insensitive)
over the text: at each position a maximal run of host characters must be
followed by the literal suffix; the captured text keeps the original case.
The run cannot contain a dot, so the regex never backtracks inside the run
and the maximal-run scan is exact. -/
def hostSuffixScan (suffix : List Char) : List Char → Option (List Char)
  | [] => none
  | c :: cs =>
    (if hostNameChar c then
      let run := (c :: cs).takeWhile hostNameChar
      let rest := (c :: cs).dropWhile hostNameChar
      if startsWithCI rest suffix then some (run ++ rest.take suffix.length) else none
    else none) <|> hostSuffixScan suffix cs

def nonSpaceChar (c : Char) : Bool := !c.isWhitespace

/-- Embeds a match of `https?:\/\/[^\s]+` (case-insensitive) anchored at the
start of the list, capturing the whole URL token in original case. -/
def urlToken (l : List Char) : Option (List Char) :=
  if startsWithCI l ['h', 't', 't', 'p'] then
    let afterHttp := l.drop 4
    let sLen := if startsWithCI afterHttp ['s'] then 1 else 0
    let rest := afterHttp.drop sLen
    if startsWithCI rest [':', '/', '/'] then
      let body := (rest.drop 3).takeWhile nonSpaceChar
      if body.isEmpty then none
      else some (l.take 4 ++ afterHttp.take sLen ++ rest.take 3 ++ body)
    else none
  else none

/-- Embeds the leftmost match of `Aliased:\s*(https?:\/\/[^\s]+)` with the
case-insensitive flag, capturing the URL. -/
def scanAliased : List Char → Option (List Char)
  | [] => none
  | c :: cs =>
    (if startsWithCI (c :: cs) "aliased:".data then
      urlToken (((c :: cs).drop 8).dropWhile Char.isWhitespace)
    else none) <|> scanAliased cs

/-- Embeds the leftmost match of `(?:production\s+)?url:?\s+(https?:\/\/[^\s]+)`
with the case-insensitive flag, capturing the URL.  The optional production
prefix never influences whether the captured URL exists, so the scan looks for
the `url` label directly. -/
def scanUrlLabel : List Char → Option (List Char)
  | [] => none
  | c :: cs =>
    (if startsWithCI (c :: cs) "url".data then
      let r1 := (c :: cs).drop 3
      let r2 := if r1.head? = some ':' then r1.drop 1 else r1
      match r2 with
      | [] => none
      | c2 :: cs2 =>
        if c2.isWhitespace then urlToken ((c2 :: cs2).dropWhile Char.isWhitespace) else none
    else none) <|> scanUrlLabel cs

/-- Embeds the candidate normalization in `extractDeploymentUrl`: prefix
`https://` unless the match already starts with `http`. -/
def candidateOfHost (h : String) : String :=
  if strStartsWith h "http" then h else "https://" ++ h

/-- Embeds the final domain filter `/vercel\.app|web\.app/` of
`extractDeploymentUrl` (case-sensitive, unlike the host patterns). -/
def knownHostingDomain (c : String) : Bool :=
  containsSub c "vercel.app" || containsSub c "web.app"

/-- Leftmost host match for one suffix pattern, as a `String`. -/
def matchHostPattern (suffix : String) (text : List Char) : Option String :=
  (hostSuffixScan suffix.data text).map String.mk

/-- One iteration of the pattern loop in `extractDeploymentUrl`: a candidate is
returned only when it passes the hosting-domain filter, otherwise the loop
moves to the next pattern. -/
def tryUrlPattern (m : Option String) : Option String :=
  match m with
  | some h =>
    let c := candidateOfHost h
    if knownHostingDomain c then some c else none
  | none => none

/-- Embeds `extractDeploymentUrl` of deploy.ts: the three URL patterns are
tried in order over the joined log text, each filtered by the hosting-domain
test; no match yields `none`. -/
def extractDeploymentUrl (logs : List String) : Option String :=
  let text := (String.intercalate "\n" logs).data
  match tryUrlPattern (matchHostPattern ".vercel.app" text) with
  | some c => some c
  | none =>
    match tryUrlPattern (matchHostPattern ".web.app" text) with
    | some c => some c
    | none => tryUrlPattern ((scanUrlLabel text).map String.mk)

/-- Case-insensitive suffix test. -/
def endsWithCI (s suf : String) : Bool := startsWithCI s.data.reverse suf.data.reverse

/-- Embeds one line of the multiline pattern
`(?:^|\n)\s*https?:\/\/[^\s]*\.vercel\.app\s*$` of `extractVercelPublicUrl`:
the trimmed line must be a single URL token ending in the vercel suffix. -/
def isVercelReadyLine (line : String) : Bool :=
  let t := strTrim line
  (match urlToken t.data with
   | some u => u = t.data
   | none => false) && endsWithCI t ".vercel.app"

/-- Embeds `extractVercelPublicUrl` of deploy.ts: an `Aliased:` URL wins,
otherwise the first log line that is exactly a vercel.app URL. -/
def extractVercelPublicUrl (logs : List String) : Option String :=
  let text := String.intercalate "\n" logs
  match scanAliased text.data with
  | some u => some (String.mk u)
  | none =>
    match (strLines text).find? isVercelReadyLine with
    | some line => some (strTrim line)
    | none => none

/-- Outcome of one spawned deployment process: the error flag of the `exec`
callback and the non-empty output lines. -/
structure ExecOutcome where
  error : Bool
  lines : List String
deriving DecidableEq, Repr

/-- Result of the frontend deployment promise inside `runDeployment`. -/
structure FrontendDeployResult where
  ok : Bool
  url : Option String
  publicUrl : Option String
deriving DecidableEq, Repr

/-- Embeds the frontend (Vercel) branch of `runDeployment`: on process error
the log is parsed for errors and `ok` is false; on success `ok` holds exactly
when a deployment URL was extracted, and the public URL prefers the alias. -/
def frontendDeploy (fe : ExecOutcome) : FrontendDeployResult × List DeploymentError :=
  if fe.error then
    ({ ok := false, url := extractDeploymentUrl fe.lines,
       publicUrl := extractVercelPublicUrl fe.lines }, parseDeploymentLog fe.lines)
  else
    let url := extractDeploymentUrl fe.lines
    ({ ok := url.isSome, url := url,
       publicUrl := (extractVercelPublicUrl fe.lines).orElse (fun _ => url) }, [])

/-- Embeds the `DeploymentResult` record of deploy.ts (log-file path omitted). -/
structure DeploymentResult where
  ok : Bool
  frontendUrl : Option String
  publicUrl : Option String
  backendUrl : Option String
  errors : List DeploymentError
deriving DecidableEq, Repr

/-- Embeds `runDeployment` of deploy.ts over the two process outcomes: overall
`ok` is the conjunction of the frontend and backend flags; the backend branch
reports `ok` exactly when its process did not error and never yields a URL. -/
def runDeployment (fe be : ExecOutcome) : DeploymentResult :=
  let fr := frontendDeploy fe
  let backendErrors := if be.error then parseDeploymentLog be.lines else []
  { ok := fr.1.ok && !be.error, frontendUrl := fr.1.url, publicUrl := fr.1.publicUrl,
    backendUrl := none, errors := fr.2 ++ backendErrors }

/-- Embeds the `CommandResult` shape of provision.ts: exit flag and trimmed
combined output of one spawned command. -/
structure CommandResult where
  ok : Bool
  output : String
deriving DecidableEq, Repr

/-- Observable event of a provisioning run: execution of one command line, or
a push of a compensation command onto the rollback stack. -/
inductive ProvisionEvent where
  | exec (line : String) (ok : Bool)
  | push (comp : String)
deriving DecidableEq, Repr

/-- State threaded through the provisioning functions: the oracle of pending
command results, the event trace, the accumulated `output` log lines, and the
mutable `rollbackStack` array of provision.ts. -/
structure ProvisionState where
  responses : List CommandResult
  events : List ProvisionEvent
  output : List String
  rollbackStack : List String
deriving DecidableEq, Repr

/-- Executes one raw command line against the oracle: the next pending
response is consumed (an exhausted oracle behaves as a failing command with
empty output) and the execution is recorded in the trace. -/
def execRaw (cmd : String) (st : ProvisionState) : CommandResult × ProvisionState :=
  let r := st.responses.headD { ok := false, output := "" }
  (r, { st with responses := st.responses.tail,
                events := st.events ++ [.exec cmd r.ok] })

/-- Embeds `run` of provision.ts: quoted command-line assembly plus execution. -/
def pRun (cmd : String) (args : List String) (st : ProvisionState) :
    CommandResult × ProvisionState :=
  execRaw (commandLine cmd args) st

/-- Appends one line to the `output` log array. -/
def pushOutput (l : String) (st : ProvisionState) : ProvisionState :=
  { st with output := st.output ++ [l] }

/-- Embeds `rollbackStack.push(c)`, also recorded in the event trace. -/
def pushComp (c : String) (st : ProvisionState) : ProvisionState :=
  { st with rollbackStack := st.rollbackStack ++ [c], events := st.events ++ [.push c] }

/-- Embeds `ensureGitRepository` of provision.ts. -/
def ensureGitRepository (st : ProvisionState) : Except String Unit × ProvisionState :=
  match pRun "git" ["rev-parse", "--is-inside-work-tree"] st with
  | (check, st1) =>
    if check.ok then (.ok (), st1)
    else
      match pRun "git" ["init"] st1 with
      | (ginit, st2) =>
        if !ginit.ok then (.error ("Git initialization failed: " ++ ginit.output), st2)
        else
          match pRun "git" ["branch", "-M", "main"] st2 with
          | (setMain, st3) =>
            let st4 :=
              if !setMain.ok then
                pushOutput ("warning: could not set default branch to main: " ++ setMain.output) st3
              else st3
            (.ok (), pushOutput "git repository initialized for scaffolded project" st4)

/-- Embeds `ensureInitialCommit` of provision.ts (best-effort, never throws). -/
def ensureInitialCommit (st : ProvisionState) : Bool × ProvisionState :=
  match pRun "git" ["rev-parse", "--verify", "HEAD"] st with
  | (hasHead, st1) =>
    if hasHead.ok then (true, st1)
    else
      match pRun "git" ["add", "."] st1 with
      | (addAll, st2) =>
        if !addAll.ok then
          (false, pushOutput ("warning: could not stage files for initial commit: " ++ addAll.output) st2)
        else
          match pRun "git"
              ["add", "-f", "supabase/functions/", "supabase/config.toml", "vercel.json",
               "frontend/src/", "frontend/package.json"] st2 with
          | (addBackend, st3) =>
            let st4 :=
              if !addBackend.ok then
                pushOutput ("warning: could not force-add source files: " ++ addBackend.output) st3
              else st3
            match pRun "git" ["commit", "-m", "Initial scaffold"] st4 with
            | (commit, st5) =>
              if !commit.ok then
                (false, pushOutput ("warning: initial commit skipped: " ++ commit.output) st5)
              else (true, pushOutput "initial git commit created" st5)

/-- First non-empty trimmed line of a command output, embedding
`output.split(/\r?\n/).map(trim).find(Boolean)`. -/
def firstNonEmptyLine (s : String) : Option String :=
  ((strLines s).map strTrim).find? (fun l => l ≠ "")

/-- Command line of the GitHub repository creation call. -/
def ghCreateLine (name : String) : String :=
  commandLine "gh" ["repo", "create", name, "--private", "--source", ".", "--remote", "origin"]

/-- Command line of the Vercel project creation call. -/
def vercelAddLine (name : String) : String := commandLine "vercel" ["project", "add", name]

/-- Compensation command registered after a GitHub repository creation. -/
def repoDeleteComp (fullRepo : String) : String := "gh repo delete " ++ fullRepo ++ " --yes"

/-- Compensation command registered after a Vercel project creation. -/
def vercelRemoveComp (name : String) : String := "vercel project rm " ++ name ++ " --yes"

/-- Embeds the tail of `ensureGitHubRepo` of provision.ts after a successful
repository creation: the best-effort initial commit followed by the push. -/
def pushAfterCreate (fullRepo : String) (st : ProvisionState) :
    Except String String × ProvisionState :=
  match ensureInitialCommit st with
  | (canPush, st7) =>
    if canPush then
      match pRun "git" ["push", "-u", "origin", "HEAD"] st7 with
      | (gpush, st8) =>
        let st9 :=
          if !gpush.ok then pushOutput ("warning: git push failed: " ++ gpush.output) st8
          else pushOutput "git remote push completed" st8
        (.ok fullRepo, st9)
    else (.ok fullRepo, st7)

/-- Embeds `ensureGitHubRepo` of provision.ts: resolve the owner, reuse an
existing repository, otherwise create it (registering its deletion as a
compensation immediately after the successful creation) and push. -/
def ensureGitHubRepo (projectName : String) (st : ProvisionState) :
    Except String String × ProvisionState :=
  match ensureGitRepository st with
  | (.error e, st1) => (.error e, st1)
  | (.ok _, st1) =>
    match pRun "gh" ["api", "user", "--jq", ".login"] st1 with
    | (ownerResult, st2) =>
      if !ownerResult.ok || ownerResult.output = "" then
        (.error ("Unable to resolve GitHub login: " ++
          (if ownerResult.output = "" then "unknown error" else ownerResult.output)), st2)
      else
        let owner := (firstNonEmptyLine ownerResult.output).getD ""
        if owner = "" then (.error "Unable to resolve GitHub login.", st2)
        else
          let fullRepo := owner ++ "/" ++ projectName
          match pRun "gh" ["repo", "view", fullRepo, "--json", "name"] st2 with
          | (repoExists, st3) =>
            if repoExists.ok then (.ok fullRepo, pushOutput ("github repo exists: " ++ fullRepo) st3)
            else
              match pRun "gh"
                  ["repo", "create", projectName, "--private", "--source", ".", "--remote", "origin"]
                  st3 with
              | (createRepo, st4) =>
                if !createRepo.ok then
                  (.error ("GitHub repo creation failed: " ++ createRepo.output), st4)
                else
                  let st5 := pushOutput ("github repo created: " ++ fullRepo) st4
                  let st6 := pushComp (repoDeleteComp fullRepo) st5
                  pushAfterCreate fullRepo st6

/-- Embeds the tail of `ensureVercelProject` of provision.ts: the link call,
tolerant of already-linked outputs, followed by the compensation push that the
source performs only after the link step and only for a fresh creation. -/
def vercelLink (projectName projectRoot : String) (created : Bool) (st : ProvisionState) :
    Except String String × ProvisionState :=
  match pRun "vercel" ["link", "--yes", "--project", projectName] st with
  | (link, st1) =>
    if !link.ok && !(containsCI link.output "already linked" || containsCI link.output "linked to") then
      (.error ("Vercel link failed: " ++ link.output), st1)
    else
      let st2 := pushOutput ("vercel project linked to " ++ projectRoot) st1
      let st3 := if created then pushComp (vercelRemoveComp projectName) st2 else st2
      (.ok projectName, st3)

/-- Embeds `ensureVercelProject` of provision.ts: inspect first, create when
absent (tolerating an already-exists answer), then link. -/
def ensureVercelProject (projectName projectRoot : String) (st : ProvisionState) :
    Except String String × ProvisionState :=
  match pRun "vercel" ["project", "inspect", projectName] st with
  | (inspect, st1) =>
    if !inspect.ok then
      match pRun "vercel" ["project", "add", projectName] st1 with
      | (add, st2) =>
        if !add.ok && !containsCI add.output "already exists" then
          (.error ("Vercel project creation failed: " ++ add.output), st2)
        else
          let created := !containsCI add.output "already exists"
          let st3 := pushOutput
            (if created then "vercel project created: " ++ projectName
             else "vercel project exists: " ++ projectName) st2
          vercelLink projectName projectRoot created st3
    else
      vercelLink projectName projectRoot false (pushOutput ("vercel project exists: " ++ projectName) st1)

/-- Loop body of `runRollback` of provision.ts.  The source pops the last
element of the stack on each iteration until the stack is empty; here the
commands are supplied in pop order (the reverse of the stack), and each
iteration removes the popped entry from the mutable stack, executes it as a
raw command line (a falsy, i.e. empty, popped command is skipped), and logs
the outcome while never raising an error. -/
def runRollbackGo : List String → ProvisionState → ProvisionState
  | [], st => st
  | cmd :: rest, st =>
    let st1 : ProvisionState := { st with rollbackStack := st.rollbackStack.dropLast }
    if cmd = "" then runRollbackGo rest st1
    else
      match execRaw cmd st1 with
      | (r, st2) =>
        let st3 := pushOutput ("rollback " ++ (if r.ok then "✅" else "⚠️") ++ ": " ++ cmd) st2
        let st4 := if r.output ≠ "" then pushOutput r.output st3 else st3
        runRollbackGo rest st4

/-- Embeds `runRollback` of provision.ts: commands are popped and executed
most-recent-first until the stack is empty. -/
def runRollback (st : ProvisionState) : ProvisionState :=
  runRollbackGo st.rollbackStack.reverse st

/-- Embeds the `ProvisionResult` record of provision.ts. -/
structure ProvisionResult where
  ok : Bool
  githubRepo : Option String
  vercelProjectId : Option String
  rollbackStack : List String
  output : List String
deriving DecidableEq, Repr

/-- Embeds the catch branch of `runProvisioning`: the error message is logged,
the rollback runs, and the result reports failure with null identifiers and
the (drained, because mutated in place) rollback stack. -/
def provisionFailure (msg : String) (st : ProvisionState) : ProvisionResult × ProvisionState :=
  let st1 := runRollback (pushOutput msg st)
  ({ ok := false, githubRepo := none, vercelProjectId := none,
     rollbackStack := st1.rollbackStack, output := st1.output }, st1)

def initialProvisionState (responses : List CommandResult) : ProvisionState :=
  { responses := responses, events := [], output := [], rollbackStack := [] }

/-- Embeds `runProvisioning` of provision.ts over a response oracle: GitHub
repository then Vercel project, with the catch-and-roll-back wrapper. -/
def runProvisioning (projectRoot projectName : String) (responses : List CommandResult) :
    ProvisionResult × ProvisionState :=
  match ensureGitHubRepo projectName (initialProvisionState responses) with
  | (.error msg, st1) => provisionFailure msg st1
  | (.ok repo, st1) =>
    match ensureVercelProject projectName projectRoot st1 with
    | (.error msg, st2) => provisionFailure msg st2
    | (.ok vid, st2) =>
      ({ ok := true, githubRepo := some repo, vercelProjectId := some vid,
         rollbackStack := st2.rollbackStack, output := st2.output }, st2)

/-- Command lines of the executed events of a trace, in execution order. -/
def execLines (evts : List ProvisionEvent) : List String :=
  evts.filterMap (fun e =>
    match e with
    | .exec l _ => some l
    | .push _ => none)

/-- Justification of a pushed compensation `c` by the events `pre` that
precede it: the Vercel removal must follow a successful project-add execution
somewhere earlier, and a repository deletion must immediately follow the
successful repository-creation execution. -/
def PushJustif (name : String) (c : String) (pre : List ProvisionEvent) : Prop :=
  (c = vercelRemoveComp name ∧ ProvisionEvent.exec (vercelAddLine name) true ∈ pre) ∨
  (∃ owner, c = repoDeleteComp (owner ++ "/" ++ name) ∧
    pre.getLast? = some (ProvisionEvent.exec (ghCreateLine name) true))

/-- Every push in the trace segment `Δ` is justified by the events preceding
it inside `base ++ Δ`. -/
def SegJustifiedFrom (name : String) (base Δ : List ProvisionEvent) : Prop :=
  ∀ pre c post, Δ = pre ++ ProvisionEvent.push c :: post → PushJustif name c (base ++ pre)

/-- Every pushed compensation in the trace is justified by earlier events. -/
def SegJustified (name : String) (evts : List ProvisionEvent) : Prop :=
  SegJustifiedFrom name [] evts

/-- Embeds the nullable sub-object `resources` of `ManifoldState` (state.ts). -/
structure StateResources where
  github_repo : Option String
  vercel_project_id : Option String
  supabase_ref : Option String
deriving DecidableEq, Repr

/-- Embeds the nullable sub-object `credentials` of `ManifoldState` (state.ts). -/
structure StateCredentials where
  vercel_token : Option String
  supabase_access_token : Option String
  supabase_url : Option String
  supabase_publishable_key : Option String
deriving DecidableEq, Repr

/-- Embeds the `config.stack` sub-object of `ManifoldState` (state.ts). -/
structure StateStack where
  frontend : String
  backend : String
deriving DecidableEq, Repr

/-- Embeds the `config` sub-object of `ManifoldState` (state.ts). -/
structure StateConfig where
  project_name : String
  stack : StateStack
deriving DecidableEq, Repr

/-- Embeds the persisted `ManifoldState` document of state.ts. -/
structure ManifoldState where
  status : String
  state_version : Nat
  run_id : String
  current_phase : String
  config : StateConfig
  resources : StateResources
  credentials : StateCredentials
  rollback_stack : List String
deriving DecidableEq, Repr

/-- Patch of `config.stack`: an absent field leaves the current value. -/
structure StackPatch where
  frontend : Option String := none
  backend : Option String := none
deriving DecidableEq, Repr

/-- Patch of `config`: partial, with a partial nested stack. -/
structure ConfigPatch where
  project_name : Option String := none
  stack : Option StackPatch := none
deriving DecidableEq, Repr

/-- Patch of `resources`: an outer `none` means the key is not mentioned, an
inner `none` sets the field to null. -/
structure ResourcesPatch where
  github_repo : Option (Option String) := none
  vercel_project_id : Option (Option String) := none
  supabase_ref : Option (Option String) := none
deriving DecidableEq, Repr

/-- Patch of `credentials`: an outer `none` means the key is not mentioned, an
inner `none` sets the field to null. -/
structure CredentialsPatch where
  vercel_token : Option (Option String) := none
  supabase_access_token : Option (Option String) := none
  supabase_url : Option (Option String) := none
  supabase_publishable_key : Option (Option String) := none
deriving DecidableEq, Repr

/-- Embeds `ManifoldStatePatch` of state.ts. -/
structure StatePatch where
  status : Option String := none
  state_version : Option Nat := none
  run_id : Option String := none
  current_phase : Option String := none
  config : Option ConfigPatch := none
  resources : Option ResourcesPatch := none
  credentials : Option CredentialsPatch := none
  rollback_stack : Option (List String) := none
deriving DecidableEq, Repr

def mergeStack (cur : StateStack) (p : Option StackPatch) : StateStack :=
  match p with
  | none => cur
  | some sp => { frontend := sp.frontend.getD cur.frontend, backend := sp.backend.getD cur.backend }

def mergeConfig (cur : StateConfig) (p : Option ConfigPatch) : StateConfig :=
  match p with
  | none => cur
  | some cp =>
    { project_name := cp.project_name.getD cur.project_name,
      stack := mergeStack cur.stack cp.stack }

def mergeResources (cur : StateResources) (p : Option ResourcesPatch) : StateResources :=
  match p with
  | none => cur
  | some rp =>
    { github_repo := rp.github_repo.getD cur.github_repo,
      vercel_project_id := rp.vercel_project_id.getD cur.vercel_project_id,
      supabase_ref := rp.supabase_ref.getD cur.supabase_ref }

def mergeCredentials (cur : StateCredentials) (p : Option CredentialsPatch) : StateCredentials :=
  match p with
  | none => cur
  | some cp =>
    { vercel_token := cp.vercel_token.getD cur.vercel_token,
      supabase_access_token := cp.supabase_access_token.getD cur.supabase_access_token,
      supabase_url := cp.supabase_url.getD cur.supabase_url,
      supabase_publishable_key := cp.supabase_publishable_key.getD cur.supabase_publishable_key }

/-- Embeds `StateManager.patch` of state.ts: top-level scalars are replaced
when supplied, the three sub-objects merge key-by-key, and `rollback_stack`
is replaced wholesale when supplied and preserved otherwise. -/
def applyPatch (s : ManifoldState) (p : StatePatch) : ManifoldState :=
  { status := p.status.getD s.status,
    state_version := p.state_version.getD s.state_version,
    run_id := p.run_id.getD s.run_id,
    current_phase := p.current_phase.getD s.current_phase,
    config := mergeConfig s.config p.config,
    resources := mergeResources s.resources p.resources,
    credentials := mergeCredentials s.credentials p.credentials,
    rollback_stack := p.rollback_stack.getD s.rollback_stack }

/-- Embeds `createDefaultState` of state.ts (the run id is an oracle input
standing for the timestamp). -/
def createDefaultState (projectName backend runId : String) : ManifoldState :=
  { status := "in_progress", state_version := 1, run_id := runId,
    current_phase := "0_env_check",
    config := { project_name := projectName,
                stack := { frontend := "react-vite", backend := backend } },
    resources := { github_repo := none, vercel_project_id := none, supabase_ref := none },
    credentials := { vercel_token := none, supabase_access_token := none,
                     supabase_url := none, supabase_publishable_key := none },
    rollback_stack := [] }

/-- Patch applied by `handleSetup` of manifold.ts right after initialization. -/
def setupPatch (selectedName : String) : StatePatch :=
  { status := some "in_progress", current_phase := some "0_env_check",
    config := some { project_name := some selectedName,
                     stack := some { frontend := some "react-vite", backend := some "flask" } } }

/-- State persisted by `handleSetup` on a fresh workspace: the default state
followed by the setup patch. -/
def setupState (selectedName backend runId : String) : ManifoldState :=
  applyPatch (createDefaultState selectedName backend runId) (setupPatch selectedName)

/-- Embeds the JavaScript truthiness test `!value` applied to the nullable
string fields in `runEnvWiringPhase`: null and the empty string are falsy. -/
def strAbsent : Option String → Bool
  | none => true
  | some v => v = ""

/-- Embeds the missing-value collection of `runEnvWiringPhase` in manifold.ts. -/
def envWiringMissing (s : ManifoldState) : List String :=
  (if strAbsent s.resources.github_repo then ["GitHub repo"] else []) ++
  (if strAbsent s.resources.vercel_project_id then ["Vercel project ID"] else []) ++
  (if strAbsent s.credentials.supabase_url then ["Supabase URL"] else []) ++
  (if strAbsent s.credentials.supabase_publishable_key then ["Supabase publishable key"] else [])

/-- Patch applied by `runEnvWiringPhase` when a required value is missing:
back to phase 1 with resources and credentials reset to null. -/
def envWiringResetPatch : StatePatch :=
  { current_phase := some "1_auth", status := some "in_progress",
    resources := some { github_repo := some none, vercel_project_id := some none,
                        supabase_ref := some none },
    credentials := some { vercel_token := some none, supabase_access_token := some none,
                          supabase_url := some none, supabase_publishable_key := some none } }

/-- Patch applied by `runEnvWiringPhase` after wiring the environment. -/
def envWiringAdvancePatch : StatePatch :=
  { current_phase := some "5_deploy", status := some "in_progress" }

/-- Embeds `runEnvWiringPhase` of manifold.ts up to its state transition: the
boolean records whether `wireProjectEnvironment` was invoked. -/
def runEnvWiringPhase (s : ManifoldState) : ManifoldState × Bool :=
  if envWiringMissing s ≠ [] then (applyPatch s envWiringResetPatch, false)
  else (applyPatch s envWiringAdvancePatch, true)

/-- Embeds the state transition of `runDeploymentPhase` of manifold.ts: a
successful deployment marks the run complete, a failed one pauses it. -/
def runDeploymentPhase (s : ManifoldState) (fe be : ExecOutcome) : ManifoldState :=
  if (runDeployment fe be).ok then
    applyPatch s { current_phase := some "5_deploy", status := some "complete" }
  else
    applyPatch s { current_phase := some "5_deploy", status := some "paused_at_auth" }

/-- Patch persisted when phase 0 passes (manifold.ts, both call sites). -/
def phase0PassPatch : StatePatch :=
  { current_phase := some "1_auth", status := some "in_progress" }

/-- Patch persisted when phase 0 cannot complete the tool installs. -/
def phase0FailPatch : StatePatch :=
  { status := some "paused_at_auth", current_phase := some "0_env_check" }

/-- Patch storing the parsed Supabase ref after silent re-verification. -/
def supabaseRefPatch (ref : Option String) : StatePatch :=
  { resources := some { supabase_ref := some ref } }

/-- Patch clearing the Supabase credential group atomically. -/
def clearSupabaseCredentialsPatch : StatePatch :=
  { credentials := some {
      supabase_access_token := some none,
      supabase_url := some none,
      supabase_publishable_key := some none } }

/-- Patch storing freshly collected and verified Supabase credentials. -/
def supabaseCollectedPatch (ref : Option String) (url pk acc : String) : StatePatch :=
  { resources := some { supabase_ref := some ref },
    credentials := some {
      supabase_url := some (some url),
      supabase_publishable_key := some (some pk),
      supabase_access_token := some (some acc) } }

/-- Patch storing the optional Vercel deployment token. -/
def vercelTokenPatch (token : String) : StatePatch :=
  { credentials := some { vercel_token := some (some token) } }

/-- Patch persisted when phase 1 succeeds. -/
def phase1AdvancePatch : StatePatch :=
  { current_phase := some "2_scaffold", status := some "in_progress" }

/-- Patch persisted when phase 1 fails. -/
def phase1PausedPatch : StatePatch :=
  { current_phase := some "1_auth", status := some "paused_at_auth" }

/-- Patch persisted when a scaffold install fails. -/
def scaffoldPausedPatch : StatePatch :=
  { current_phase := some "2_scaffold", status := some "paused_at_auth" }

/-- Patch persisted when phase 2 succeeds. -/
def scaffoldAdvancePatch : StatePatch :=
  { current_phase := some "3_provision", status := some "in_progress" }

/-- Patch persisted when provisioning fails: terminal failed state with the
rollback stack emptied. -/
def provisionFailedPatch : StatePatch :=
  { current_phase := some "3_provision", status := some "failed", rollback_stack := some [] }

/-- Patch persisted when provisioning succeeds: the resource identifiers and
the accumulated rollback stack of the provisioning result are stored. -/
def provisionSuccessPatch (r : ProvisionResult) : StatePatch :=
  { current_phase := some "4_env_wiring", status := some "in_progress",
    resources := some {
      github_repo := some r.githubRepo,
      vercel_project_id := some r.vercelProjectId },
    rollback_stack := some r.rollbackStack }

/-- One persisted state transition of the orchestrator (manifold.ts): each
constructor corresponds to one `stateManager.patch` call site, with the data
flowing into the patch quantified as the oracle results that produce it.
Purely external outcomes (tool checks, CLI auth results, scaffold installs)
are free choices of the relation. -/
inductive Step : ManifoldState → ManifoldState → Prop where
  | setupAgain (s : ManifoldState) (selectedName : String) :
      Step s (applyPatch s (setupPatch selectedName))
  | phase0Pass (s : ManifoldState) :
      Step s (applyPatch s phase0PassPatch)
  | phase0Fail (s : ManifoldState) :
      Step s (applyPatch s phase0FailPatch)
  | authExistingVerified (s : ManifoldState) (p f : ProbeResponse) (ref : String)
      (hok : (verifySupabaseProjectApi p f).1.ok = true) :
      Step s (applyPatch s (supabaseRefPatch (some ref)))
  | authExistingInvalid (s : ManifoldState) (p f : ProbeResponse)
      (hfail : (verifySupabaseProjectApi p f).1.ok = false) :
      Step s (applyPatch s clearSupabaseCredentialsPatch)
  | authCollected (s : ManifoldState) (p f : ProbeResponse) (url pk acc : String)
      (ref : Option String) (hok : (verifySupabaseProjectApi p f).1.ok = true) :
      Step s (applyPatch s (supabaseCollectedPatch ref url pk acc))
  | vercelTokenStored (s : ManifoldState) (token : String) :
      Step s (applyPatch s (vercelTokenPatch token))
  | phase1Advance (s : ManifoldState) :
      Step s (applyPatch s phase1AdvancePatch)
  | phase1Paused (s : ManifoldState) :
      Step s (applyPatch s phase1PausedPatch)
  | scaffoldPaused (s : ManifoldState) :
      Step s (applyPatch s scaffoldPausedPatch)
  | scaffoldAdvance (s : ManifoldState) :
      Step s (applyPatch s scaffoldAdvancePatch)
  | provisionFailed (s : ManifoldState) (root : String) (w : List CommandResult)
      (hfail : (runProvisioning root s.config.project_name w).1.ok = false) :
      Step s (applyPatch s provisionFailedPatch)
  | provisionSucceeded (s : ManifoldState) (root : String) (w : List CommandResult)
      (hok : (runProvisioning root s.config.project_name w).1.ok = true) :
      Step s (applyPatch s (provisionSuccessPatch (runProvisioning root s.config.project_name w).1))
  | envWiring (s : ManifoldState) :
      Step s (runEnvWiringPhase s).1
  | deployPhase (s : ManifoldState) (fe be : ExecOutcome) :
      Step s (runDeploymentPhase s fe be)

/-- States reachable through the orchestrator phase sequence from a fresh
setup. -/
def ReachableRunState (s : ManifoldState) : Prop :=
  ∃ name backend runId, Relation.ReflTransGen Step (setupState name backend runId) s

/-- Provenance of the persisted rollback stack: empty, or exactly the stack of
a successful provisioning run. -/
def RollbackStackProvenance (s : ManifoldState) : Prop :=
  s.rollback_stack = [] ∨
    ∃ root name w, (runProvisioning root name w).1.ok = true ∧
      (runProvisioning root name w).1.rollbackStack = s.rollback_stack

/-- State patch that mentions only the `credentials` sub-object. -/
def credPatchOnly (cp : CredentialsPatch) : StatePatch := { credentials := some cp }

/-- Key-wise union of two credential patches (first one wins where both are
present; for disjoint patches the order is irrelevant). -/
def credUnion (a b : CredentialsPatch) : CredentialsPatch :=
  { vercel_token := a.vercel_token.orElse (fun _ => b.vercel_token),
    supabase_access_token := a.supabase_access_token.orElse (fun _ => b.supabase_access_token),
    supabase_url := a.supabase_url.orElse (fun _ => b.supabase_url),
    supabase_publishable_key :=
      a.supabase_publishable_key.orElse (fun _ => b.supabase_publishable_key) }

/-- Two credential patches touch disjoint keys. -/
def credDisjoint (a b : CredentialsPatch) : Prop :=
  (a.vercel_token = none ∨ b.vercel_token = none) ∧
  (a.supabase_access_token = none ∨ b.supabase_access_token = none) ∧
  (a.supabase_url = none ∨ b.supabase_url = none) ∧
  (a.supabase_publishable_key = none ∨ b.supabase_publishable_key = none)

/-- Response oracle describing a provisioning run against already-existing
resources: the work-tree check, owner lookup, repository view, project
inspect and link calls all succeed, and the owner lookup output yields the
login `o`. -/
def ExistingResourceResponses (o : String) (r1 r2 r3 r4 r5 : CommandResult) : Prop :=
  r1.ok = true ∧ r2.ok = true ∧ r2.output ≠ "" ∧ firstNonEmptyLine r2.output = some o ∧
    o ≠ "" ∧ r3.ok = true ∧ r4.ok = true ∧ r5.ok = true

/-- Response oracle of a run that creates a fresh GitHub repository (the view
call fails, the creation succeeds) and reuses the existing Vercel project. -/
def exampleProvisionWorld : List CommandResult :=
  [{ ok := true, output := "true" },
   { ok := true, output := "alice" },
   { ok := false, output := "" },
   { ok := true, output := "" },
   { ok := true, output := "deadbeef" },
   { ok := true, output := "" },
   { ok := true, output := "" },
   { ok := true, output := "" }]

/-- Response oracle of a run where the Vercel project is freshly created but
the subsequent link call fails: work-tree check, owner lookup and repository
view succeed (repository reused), project inspect fails, project add succeeds,
link fails without an already-linked answer. -/
def linkFailureWorld : List CommandResult :=
  [{ ok := true, output := "true" },
   { ok := true, output := "alice" },
   { ok := true, output := "ok" },
   { ok := false, output := "" },
   { ok := true, output := "created project" },
   { ok := false, output := "boom" }]

/-- Orchestrator run used as the concrete phase-sequence example: fresh setup. -/
def exampleS0 : ManifoldState := setupState "my-app" "flask" "run-1"

/-- Example run after phase 0 passes. -/
def exampleS1 : ManifoldState := applyPatch exampleS0 phase0PassPatch

/-- Example run after Supabase credentials are collected and verified. -/
def exampleS2 : ManifoldState :=
  applyPatch exampleS1
    (supabaseCollectedPatch (some "abcdefghijklmnopqrst")
      "https://abcdefghijklmnopqrst.supabase.co" "pk-1" "sbp-1")

/-- Example run after phase 1 completes. -/
def exampleS3 : ManifoldState := applyPatch exampleS2 phase1AdvancePatch

/-- Example run after phase 2 completes. -/
def exampleS4 : ManifoldState := applyPatch exampleS3 scaffoldAdvancePatch

/-- Example run after a provisioning success that created the repository: the
provisioning result stores a non-empty rollback stack into the state. -/
def exampleS5 : ManifoldState :=
  applyPatch exampleS4
    (provisionSuccessPatch
      (runProvisioning "/ws/my-app" exampleS4.config.project_name exampleProvisionWorld).1)

/-- Example run after the environment-wiring phase advances. -/
def exampleS6 : ManifoldState := (runEnvWiringPhase exampleS5).1

/-- Frontend deployment outcome of the example run: success with a URL. -/
def exampleFrontend : ExecOutcome :=
  { error := false, lines := ["https://my-app-123.vercel.app"] }

/-- Backend deployment outcome of the example run: success. -/
def exampleBackend : ExecOutcome :=
  { error := false, lines := ["Deployed Function api version 1"] }

/-- Example run after a successful deployment: status complete. -/
def exampleS7 : ManifoldState := runDeploymentPhase exampleS6 exampleFrontend exampleBackend

/-- Phase-4 entry state of the example run with the Vercel project id missing,
as in the resumed-run scenario of the spec. -/
def examplePhase4Missing : ManifoldState :=
  applyPatch exampleS5 { resources := some { vercel_project_id := some none } }

/-- Frontend deployment output containing both a raw vercel.app deployment URL
and an aliased public URL. -/
def exampleAliasOutcome : ExecOutcome :=
  { error := false,
    lines := ["Deployment: https://raw-123.vercel.app",
              "Aliased: https://app-demo.example-host.app"] }

/-- Frontend deployment output that exits successfully but only carries a URL
under a `url:` label on a foreign domain. -/
def exampleLabelOutcome : ExecOutcome :=
  { error := false, lines := ["url: https://foo.example.com"] }

/-- C1: project endpoint verification follows the two-probe cascade.  The probe
list shows that the settings probe (no authorization header) is always issued
first and that exactly one additional probe, against the REST endpoint with the
bearer header, is issued exactly when the first probe is rejected with 401/403.
The ok flag is false exactly when the first probe is a network error, or the
first probe is rejected and the second is a network error or also rejected;
in every other case (including any status outside 2xx/401/403 on either probe)
verification optimistically succeeds. -/
theorem verify_project_api_two_probe_cascade :
    ∀ p f : ProbeResponse,
      (verifySupabaseProjectApi p f).2 =
        (if probeAuthRejected p then [settingsProbe, restProbe] else [settingsProbe]) ∧
      (verifySupabaseProjectApi p f).1.ok =
        !(probeNetworkError p ||
          (probeAuthRejected p && (probeNetworkError f || probeAuthRejected f))) ∧
      settingsProbe.withAuthorization = false ∧ restProbe.withAuthorization = true := by
  intro p f
  rcases p with m | ⟨st, sn⟩
  · simp [verifySupabaseProjectApi, probeNetworkError, probeAuthRejected, settingsProbe, restProbe]
  · rcases f with m2 | ⟨st2, sn2⟩
    · cases h1 : is2xx st <;> cases h2 : isAuthRejectStatus st <;>
        simp [verifySupabaseProjectApi, probeNetworkError, probeAuthRejected,
          settingsProbe, restProbe, h1, h2]
    · cases h1 : is2xx st <;> cases h2 : isAuthRejectStatus st <;>
        cases h3 : is2xx st2 <;> cases h4 : isAuthRejectStatus st2 <;>
        simp [verifySupabaseProjectApi, probeNetworkError, probeAuthRejected,
          settingsProbe, restProbe, h1, h2, h3, h4]

/-- C9 counterexample: the source character class also contains the backslash
(the regex reads `\\` inside the class), so a lone backslash is outside the
class claimed by the spec yet passes through unquoted; moreover the empty
string consists only of claimed-class characters yet is quoted. -/
theorem quote_arg_spec_class_counterexample :
    "\\".data.all specArgClass = false ∧ quoteArg "\\" = "\\" ∧
      "".data.all specArgClass = true ∧ quoteArg "" = "\"\"" := by decide

/-- C9 amended: with the backslash added to the allowed class (as the source
regex has it), every argument containing a character outside the class, and
the empty argument, is wrapped in double quotes with internal double quotes
escaped, and every non-empty argument of allowed characters passes through
unquoted. -/
theorem quote_arg_quoting_characterization :
    ∀ arg : String,
      ((arg.data.all allowedArgChar = false ∨ arg = "") →
        quoteArg arg = String.mk (dquote :: (escapeQuotes arg).data ++ [dquote])) ∧
      (arg ≠ "" → arg.data.all allowedArgChar = true → quoteArg arg = arg) := by
  intro arg
  constructor
  · intro h
    rcases h with h | h
    · simp [quoteArg, h]
    · subst h; simp [quoteArg]
  · intro h1 h2
    have hne : ¬arg.data.isEmpty := by
      rcases arg with ⟨d⟩
      cases d with
      | nil => exact absurd rfl h1
      | cons c cs => simp
    simp [quoteArg, h2, hne]

/-- C9 amended witness: an argument with a space is quoted with the escape
applied, a plain argument passes through. -/
theorem quote_arg_quoting_characterization_witness :
    quoteArg "a b" = String.mk (dquote :: (escapeQuotes "a b").data ++ [dquote]) ∧
      quoteArg "abc" = "abc" :=
  ⟨(quote_arg_quoting_characterization "a b").1 (Or.inl (by decide)),
    (quote_arg_quoting_characterization "abc").2 (by decide) (by decide)⟩

/-- C8: the ENOENT example line is classified as a build error, and an output
containing the aliased URL yields exactly that URL as the public URL, even
when a raw vercel.app deployment URL is also present and extracted. -/
theorem log_analyzer_examples :
    (parseDeploymentLog ["Error: ENOENT: missing module \x27foo\x27"]).map (fun e => e.type) =
        [DeployErrorKind.build] ∧
      extractVercelPublicUrl ["Aliased: https://app-demo.example-host.app"] =
        some "https://app-demo.example-host.app" ∧
      (frontendDeploy exampleAliasOutcome).1.url = some "https://raw-123.vercel.app" ∧
      (frontendDeploy exampleAliasOutcome).1.publicUrl =
        some "https://app-demo.example-host.app" := by decide

/-- C6: entering phase 4 with any of the four required values absent resets the
phase to 1 with all resource and credential fields null and skips the wiring,
while a state with all four values present is wired and advanced to phase 5
with resources, credentials and rollback stack untouched. -/
theorem env_wiring_validates_or_resets :
    ∀ s : ManifoldState,
      ((strAbsent s.resources.github_repo = true ∨
        strAbsent s.resources.vercel_project_id = true ∨
        strAbsent s.credentials.supabase_url = true ∨
        strAbsent s.credentials.supabase_publishable_key = true) →
        (runEnvWiringPhase s).2 = false ∧
        (runEnvWiringPhase s).1.current_phase = "1_auth" ∧
        (runEnvWiringPhase s).1.resources =
          { github_repo := none, vercel_project_id := none, supabase_ref := none } ∧
        (runEnvWiringPhase s).1.credentials =
          { vercel_token := none, supabase_access_token := none,
            supabase_url := none, supabase_publishable_key := none }) ∧
      ((strAbsent s.resources.github_repo = false ∧
        strAbsent s.resources.vercel_project_id = false ∧
        strAbsent s.credentials.supabase_url = false ∧
        strAbsent s.credentials.supabase_publishable_key = false) →
        (runEnvWiringPhase s).2 = true ∧
        (runEnvWiringPhase s).1.current_phase = "5_deploy" ∧
        (runEnvWiringPhase s).1.resources = s.resources ∧
        (runEnvWiringPhase s).1.credentials = s.credentials ∧
        (runEnvWiringPhase s).1.rollback_stack = s.rollback_stack) := by
  intro s
  constructor
  · intro h
    have hm : envWiringMissing s ≠ [] := by
      unfold envWiringMissing
      rcases h with h | h | h | h <;> simp [h]
    simp [runEnvWiringPhase, hm, applyPatch, envWiringResetPatch,
      mergeResources, mergeCredentials]
  · rintro ⟨h1, h2, h3, h4⟩
    have hm : envWiringMissing s = [] := by
      unfold envWiringMissing
      simp [h1, h2, h3, h4]
    simp [runEnvWiringPhase, hm, applyPatch, envWiringAdvancePatch,
      mergeResources, mergeCredentials]

/-- C6 witness: the spec scenario, phase 4 entered with the Vercel project id
null after an otherwise complete phase-3 state. -/
theorem env_wiring_validates_or_resets_witness :
    (runEnvWiringPhase examplePhase4Missing).2 = false ∧
      (runEnvWiringPhase examplePhase4Missing).1.current_phase = "1_auth" ∧
      (runEnvWiringPhase examplePhase4Missing).1.resources =
        { github_repo := none, vercel_project_id := none, supabase_ref := none } ∧
      (runEnvWiringPhase examplePhase4Missing).1.credentials =
        { vercel_token := none, supabase_access_token := none,
          supabase_url := none, supabase_publishable_key := none } :=
  (env_wiring_validates_or_resets examplePhase4Missing).1 (Or.inr (Or.inl (by decide)))

/-- Layering two optional overrides of the same field equals one override by
the keywise union, provided at most one side overrides. -/
theorem option_patch_layer {α : Type} (a b : Option α) (x : α) (h : a = none ∨ b = none) :
    b.getD (a.getD x) = (a.orElse (fun _ => b)).getD x := by
  rcases h with h | h
  · subst h; cases b <;> simp [Option.orElse]
  · subst h; cases a <;> simp [Option.orElse]

/-- C5: patch merges only the provided sub-objects key-by-key, replaces the
rollback stack wholesale exactly when supplied, never erases sibling fields a
sub-patch did not mention, and patching two disjoint credential patches in
sequence equals patching their union at once. -/
theorem patch_deep_merge_and_composition :
    ∀ (s : ManifoldState) (p : StatePatch) (cp1 cp2 : CredentialsPatch),
      (p.config = none → (applyPatch s p).config = s.config) ∧
      (p.resources = none → (applyPatch s p).resources = s.resources) ∧
      (p.credentials = none → (applyPatch s p).credentials = s.credentials) ∧
      (p.rollback_stack = none → (applyPatch s p).rollback_stack = s.rollback_stack) ∧
      (∀ r, p.rollback_stack = some r → (applyPatch s p).rollback_stack = r) ∧
      (∀ cp, p.credentials = some cp →
        (cp.vercel_token = none →
          (applyPatch s p).credentials.vercel_token = s.credentials.vercel_token) ∧
        (cp.supabase_access_token = none →
          (applyPatch s p).credentials.supabase_access_token =
            s.credentials.supabase_access_token) ∧
        (cp.supabase_url = none →
          (applyPatch s p).credentials.supabase_url = s.credentials.supabase_url) ∧
        (cp.supabase_publishable_key = none →
          (applyPatch s p).credentials.supabase_publishable_key =
            s.credentials.supabase_publishable_key)) ∧
      (∀ rp, p.resources = some rp →
        (rp.github_repo = none →
          (applyPatch s p).resources.github_repo = s.resources.github_repo) ∧
        (rp.vercel_project_id = none →
          (applyPatch s p).resources.vercel_project_id = s.resources.vercel_project_id) ∧
        (rp.supabase_ref = none →
          (applyPatch s p).resources.supabase_ref = s.resources.supabase_ref)) ∧
      (credDisjoint cp1 cp2 →
        applyPatch (applyPatch s (credPatchOnly cp1)) (credPatchOnly cp2) =
          applyPatch s (credPatchOnly (credUnion cp1 cp2))) := by
  intro s p cp1 cp2
  refine ⟨?_, ?_, ?_, ?_, ?_, ?_, ?_, ?_⟩
  · intro h; simp [applyPatch, mergeConfig, h]
  · intro h; simp [applyPatch, mergeResources, h]
  · intro h; simp [applyPatch, mergeCredentials, h]
  · intro h; simp [applyPatch, h]
  · intro r h; simp [applyPatch, h]
  · intro cp h
    refine ⟨?_, ?_, ?_, ?_⟩ <;> intro h2 <;> simp [applyPatch, mergeCredentials, h, h2]
  · intro rp h
    refine ⟨?_, ?_, ?_⟩ <;> intro h2 <;> simp [applyPatch, mergeResources, h, h2]
  · rintro ⟨d1, d2, d3, d4⟩
    simp only [applyPatch, credPatchOnly, mergeConfig, mergeResources, mergeCredentials,
      credUnion, Option.getD_none, ManifoldState.mk.injEq, StateCredentials.mk.injEq,
      and_true, true_and]
    refine ⟨?_, ?_, ?_, ?_⟩
    · exact option_patch_layer _ _ _ d1
    · exact option_patch_layer _ _ _ d2
    · exact option_patch_layer _ _ _ d3
    · exact option_patch_layer _ _ _ d4

/-- C5 witness: patching an access token and then a URL equals patching both at
once, and a credentials-only patch leaves the rollback stack untouched. -/
theorem patch_deep_merge_and_composition_witness :
    applyPatch (applyPatch exampleS0 (credPatchOnly { supabase_access_token := some (some "a") }))
        (credPatchOnly { supabase_url := some (some "u") }) =
      applyPatch exampleS0 (credPatchOnly
        (credUnion { supabase_access_token := some (some "a") } { supabase_url := some (some "u") })) ∧
      (applyPatch exampleS0
        (credPatchOnly { supabase_access_token := some (some "a") })).rollback_stack =
        exampleS0.rollback_stack :=
  ⟨(patch_deep_merge_and_composition exampleS0
      (credPatchOnly { supabase_access_token := some (some "a") })
      { supabase_access_token := some (some "a") }
      { supabase_url := some (some "u") }).2.2.2.2.2.2.2
        ⟨Or.inl rfl, Or.inr rfl, Or.inl rfl, Or.inl rfl⟩,
    (patch_deep_merge_and_composition exampleS0
      (credPatchOnly { supabase_access_token := some (some "a") })
      { supabase_access_token := some (some "a") }
      { supabase_url := some (some "u") }).2.2.2.1 rfl⟩

/-- Rollback loop drains the stack completely: each iteration pops one entry. -/
theorem runRollbackGo_drains (l : List String) :
    ∀ st : ProvisionState, st.rollbackStack.length = l.length →
      (runRollbackGo l st).rollbackStack = [] := by
  induction l with
  | nil =>
    intro st h
    simpa [runRollbackGo] using List.length_eq_zero.mp h
  | cons c rest ih =>
    intro st h
    have hlen : st.rollbackStack.dropLast.length = rest.length := by
      rw [List.length_dropLast, h]
      simp
    by_cases hc : c = ""
    · simp only [runRollbackGo, hc, if_pos rfl]
      exact ih _ hlen
    · simp only [runRollbackGo, if_neg hc, execRaw]
      split
      · exact ih _ hlen
      · exact ih _ hlen

/-- Rollback loop executes exactly the non-empty supplied commands, in order,
regardless of the success or failure of each executed command. -/
theorem runRollbackGo_execLines (l : List String) :
    ∀ st : ProvisionState, execLines (runRollbackGo l st).events =
      execLines st.events ++ l.filter (fun c => c ≠ "") := by
  induction l with
  | nil => intro st; simp [runRollbackGo]
  | cons c rest ih =>
    intro st
    by_cases hc : c = ""
    · simp only [runRollbackGo, hc, if_true, eq_self_iff_true]
      rw [ih]
      simp
    · simp only [runRollbackGo, if_neg hc, execRaw]
      split
      · rw [ih]
        simp [execLines, pushOutput, List.filterMap_append, hc]
      · rw [ih]
        simp [execLines, pushOutput, List.filterMap_append, hc]

/-- C4: a triggered rollback executes the pushed compensations in exact
reverse order of creation, continues through the remaining compensations
whatever result each executed command returns (the response oracle is
universally quantified, including failures), and leaves the stack empty
without raising any error. -/
theorem rollback_reverse_order_best_effort :
    ∀ (stack : List String) (responses : List CommandResult),
      "" ∉ stack →
      (runRollback { responses := responses, events := [], output := [], rollbackStack := stack }).rollbackStack = [] ∧
      execLines (runRollback { responses := responses, events := [], output := [], rollbackStack := stack }).events = stack.reverse := by
  intro stack responses h
  unfold runRollback
  constructor
  · exact runRollbackGo_drains _ _ (by simp)
  · rw [runRollbackGo_execLines]
    have hfilter : stack.reverse.filter (fun c => c ≠ "") = stack.reverse := by
      rw [List.filter_eq_self]
      intro a ha
      simp only [ne_eq, decide_eq_true_eq]
      intro heq
      exact h (heq ▸ List.mem_reverse.mp ha)
    simp [execLines, hfilter]
    intro a ha heq
    exact h (heq ▸ ha)

/-- C4 witness: compensations pushed in the order c1 then c2 run as c2 then c1,
even though the first executed command fails, and the stack ends empty. -/
theorem rollback_reverse_order_best_effort_witness :
    (runRollback { responses := [{ ok := false, output := "fail" }], events := [], output := [], rollbackStack := ["c1", "c2"] }).rollbackStack = [] ∧
      execLines (runRollback { responses := [{ ok := false, output := "fail" }], events := [], output := [], rollbackStack := ["c1", "c2"] }).events = ["c2", "c1"] :=
  rollback_reverse_order_best_effort ["c1", "c2"] [{ ok := false, output := "fail" }] (by decide)

/-- C10: the deployment result is ok only when a URL on one of the two known
hosting domains was extracted from the frontend output.  A frontend process
that exits successfully but whose output yields no such URL produces a failed
deployment, after which the orchestrator pauses the run rather than completing
it; and a URL captured via the `url:` label on a foreign domain is discarded,
leaving the extraction null. -/
theorem deploy_ok_requires_hosting_url :
    (∀ (s : ManifoldState) (fe be : ExecOutcome), fe.error = false →
      extractDeploymentUrl fe.lines = none →
      (frontendDeploy fe).1.ok = false ∧ (runDeployment fe be).ok = false ∧
      (runDeploymentPhase s fe be).status = "paused_at_auth") ∧
    (∀ fe be : ExecOutcome, (runDeployment fe be).ok = true →
      (extractDeploymentUrl fe.lines).isSome = true) ∧
    (∀ (logs : List String) (u : String),
      matchHostPattern ".vercel.app" (String.intercalate "\n" logs).data = none →
      matchHostPattern ".web.app" (String.intercalate "\n" logs).data = none →
      (scanUrlLabel (String.intercalate "\n" logs).data).map String.mk = some u →
      knownHostingDomain (candidateOfHost u) = false →
      extractDeploymentUrl logs = none) := by
  refine ⟨?_, ?_, ?_⟩
  · intro s fe be hferr hurl
    have hfok : (frontendDeploy fe).1.ok = false := by
      simp [frontendDeploy, hferr, hurl]
    have hdok : (runDeployment fe be).ok = false := by
      simp [runDeployment, hfok]
    refine ⟨hfok, hdok, ?_⟩
    simp [runDeploymentPhase, hdok, applyPatch]
  · intro fe be hok
    by_cases hferr : fe.error
    · exfalso
      simp [runDeployment, frontendDeploy, hferr] at hok
    · simp only [Bool.not_eq_true] at hferr
      simp [runDeployment, frontendDeploy, hferr] at hok
      exact hok.1
  · intro logs u h1 h2 h3 h4
    simp [extractDeploymentUrl, tryUrlPattern, h1, h2, h3, h4]

/-- C10 witness: a successful frontend process whose output only labels a
foreign-domain URL yields a failed deployment and a paused run. -/
theorem deploy_ok_requires_hosting_url_witness :
    ((frontendDeploy exampleLabelOutcome).1.ok = false ∧
      (runDeployment exampleLabelOutcome exampleBackend).ok = false ∧
      (runDeploymentPhase exampleS6 exampleLabelOutcome exampleBackend).status = "paused_at_auth") ∧
      extractDeploymentUrl ["url: https://foo.example.com"] = none :=
  ⟨deploy_ok_requires_hosting_url.1 exampleS6 exampleLabelOutcome exampleBackend rfl (by decide),
    deploy_ok_requires_hosting_url.2.2 ["url: https://foo.example.com"]
      "https://foo.example.com" (by decide) (by decide) (by decide) (by decide)⟩

/-- One provisioning run against already-existing resources reuses both the
repository and the hosting project: it succeeds, registers no compensation,
and its trace contains no push event at all. -/
theorem runProvisioning_existing (root name o : String) (r1 r2 r3 r4 r5 : CommandResult)
    (h : ExistingResourceResponses o r1 r2 r3 r4 r5) :
    (runProvisioning root name [r1, r2, r3, r4, r5]).1.ok = true ∧
    (runProvisioning root name [r1, r2, r3, r4, r5]).1.rollbackStack = [] ∧
    (∀ c, ProvisionEvent.push c ∉ (runProvisioning root name [r1, r2, r3, r4, r5]).2.events) := by
  obtain ⟨h1, h2, h2o, hfl, ho, h3, h4, h5⟩ := h
  simp [runProvisioning, initialProvisionState, ensureGitHubRepo, ensureGitRepository,
    pushAfterCreate, ensureVercelProject, vercelLink, pRun, execRaw, pushOutput,
    h1, h2, h2o, hfl, ho, h3, h4, h5]

/-- C7: provisioning is idempotent against existing resources: two runs whose
inspection calls report the repository and the hosting project as already
present both report ok with an empty rollback stack, and the second run
registers no compensation whatsoever. -/
theorem provisioning_idempotent_rerun :
    ∀ (root root2 name o o2 : String) (r1 r2 r3 r4 r5 q1 q2 q3 q4 q5 : CommandResult),
      ExistingResourceResponses o r1 r2 r3 r4 r5 →
      ExistingResourceResponses o2 q1 q2 q3 q4 q5 →
      (runProvisioning root name [r1, r2, r3, r4, r5]).1.ok = true ∧
      (runProvisioning root2 name [q1, q2, q3, q4, q5]).1.ok = true ∧
      (runProvisioning root2 name [q1, q2, q3, q4, q5]).1.rollbackStack = [] ∧
      (∀ c, ProvisionEvent.push c ∉ (runProvisioning root2 name [q1, q2, q3, q4, q5]).2.events) := by
  intro root root2 name o o2 r1 r2 r3 r4 r5 q1 q2 q3 q4 q5 hfst hsnd
  obtain ⟨hok1, _, _⟩ := runProvisioning_existing root name o r1 r2 r3 r4 r5 hfst
  obtain ⟨hok2, hstack2, hpush2⟩ := runProvisioning_existing root2 name o2 q1 q2 q3 q4 q5 hsnd
  exact ⟨hok1, hok2, hstack2, hpush2⟩

/-- C7 witness: two concrete reruns against existing resources. -/
theorem provisioning_idempotent_rerun_witness :
    (runProvisioning "/ws" "my-app" [{ ok := true, output := "x" }, { ok := true, output := "alice" }, { ok := true, output := "" }, { ok := true, output := "" }, { ok := true, output := "" }]).1.ok = true ∧
      (runProvisioning "/ws" "my-app" [{ ok := true, output := "y" }, { ok := true, output := "alice" }, { ok := true, output := "" }, { ok := true, output := "" }, { ok := true, output := "" }]).1.ok = true ∧
      (runProvisioning "/ws" "my-app" [{ ok := true, output := "y" }, { ok := true, output := "alice" }, { ok := true, output := "" }, { ok := true, output := "" }, { ok := true, output := "" }]).1.rollbackStack = [] ∧
      (∀ c, ProvisionEvent.push c ∉ (runProvisioning "/ws" "my-app" [{ ok := true, output := "y" }, { ok := true, output := "alice" }, { ok := true, output := "" }, { ok := true, output := "" }, { ok := true, output := "" }]).2.events) :=
  provisioning_idempotent_rerun "/ws" "/ws" "my-app" "alice" "alice" _ _ _ _ _ _ _ _ _ _
    (by unfold ExistingResourceResponses; decide) (by unfold ExistingResourceResponses; decide)

/-- A patch that does not supply `rollback_stack` preserves the rollback-stack
provenance of the state. -/
theorem provenance_of_patch_none {s : ManifoldState} (p : StatePatch)
    (hnone : p.rollback_stack = none) (hp : RollbackStackProvenance s) :
    RollbackStackProvenance (applyPatch s p) := by
  unfold RollbackStackProvenance at *
  have hstack : (applyPatch s p).rollback_stack = s.rollback_stack := by
    simp [applyPatch, hnone]
  rw [hstack]
  exact hp

/-- Every orchestrator transition preserves rollback-stack provenance: only the
two provisioning patch sites touch the stack, writing the empty stack on
failure and the provisioning result stack on success. -/
theorem step_preserves_provenance {s s2 : ManifoldState} (h : Step s s2)
    (hp : RollbackStackProvenance s) : RollbackStackProvenance s2 := by
  cases h with
  | setupAgain name => exact provenance_of_patch_none _ rfl hp
  | phase0Pass => exact provenance_of_patch_none _ rfl hp
  | phase0Fail => exact provenance_of_patch_none _ rfl hp
  | authExistingVerified p f ref hok => exact provenance_of_patch_none _ rfl hp
  | authExistingInvalid p f hfail => exact provenance_of_patch_none _ rfl hp
  | authCollected p f url pk acc ref hok => exact provenance_of_patch_none _ rfl hp
  | vercelTokenStored token => exact provenance_of_patch_none _ rfl hp
  | phase1Advance => exact provenance_of_patch_none _ rfl hp
  | phase1Paused => exact provenance_of_patch_none _ rfl hp
  | scaffoldPaused => exact provenance_of_patch_none _ rfl hp
  | scaffoldAdvance => exact provenance_of_patch_none _ rfl hp
  | provisionFailed root w hfail => exact Or.inl rfl
  | provisionSucceeded root w hok =>
    exact Or.inr ⟨root, s.config.project_name, w, hok, rfl⟩
  | envWiring =>
    unfold runEnvWiringPhase
    split <;> exact provenance_of_patch_none _ rfl hp
  | deployPhase fe be =>
    unfold runDeploymentPhase
    split <;> exact provenance_of_patch_none _ rfl hp

/-- Every reachable run state carries a rollback stack that is empty or the
stack of a successful provisioning run. -/
theorem reachable_provenance : ∀ s, ReachableRunState s → RollbackStackProvenance s := by
  rintro s ⟨name, backend, runId, h⟩
  induction h with
  | refl => exact Or.inl rfl
  | tail hab hstep ih => exact step_preserves_provenance hstep ih

/-- The example run reaches a complete state through the full phase sequence:
setup, phase 0, credential collection, phase 1 and 2 advances, a provisioning
success that created the repository, environment wiring, and deployment. -/
theorem exampleRunReachable : ReachableRunState exampleS7 := by
  refine ⟨"my-app", "flask", "run-1", ?_⟩
  have h01 : Step exampleS0 exampleS1 := Step.phase0Pass exampleS0
  have h12 : Step exampleS1 exampleS2 :=
    Step.authCollected exampleS1 (.resp 200 "") (.resp 200 "")
      "https://abcdefghijklmnopqrst.supabase.co" "pk-1" "sbp-1" (some "abcdefghijklmnopqrst")
      (by decide)
  have h23 : Step exampleS2 exampleS3 := Step.phase1Advance exampleS2
  have h34 : Step exampleS3 exampleS4 := Step.scaffoldAdvance exampleS3
  have h45 : Step exampleS4 exampleS5 :=
    Step.provisionSucceeded exampleS4 "/ws/my-app" exampleProvisionWorld (by decide)
  have h56 : Step exampleS5 exampleS6 := Step.envWiring exampleS5
  have h67 : Step exampleS6 exampleS7 := Step.deployPhase exampleS6 exampleFrontend exampleBackend
  exact Relation.ReflTransGen.tail
    (Relation.ReflTransGen.tail
      (Relation.ReflTransGen.tail
        (Relation.ReflTransGen.tail
          (Relation.ReflTransGen.tail
            (Relation.ReflTransGen.tail
              (Relation.ReflTransGen.tail Relation.ReflTransGen.refl h01) h12) h23) h34) h45)
      h56) h67

/-- C2 counterexample: a reachable state with status complete whose rollback
stack still holds the repository-deletion compensation: the success patch of
phase 3 stores the provisioning stack into the state and no later phase clears
it, so completion preserves it. -/
theorem complete_state_with_nonempty_rollback_stack :
    ReachableRunState exampleS7 ∧ exampleS7.status = "complete" ∧
      exampleS7.rollback_stack = ["gh repo delete alice/my-app --yes"] ∧
      exampleS7.rollback_stack ≠ [] :=
  ⟨exampleRunReachable, by decide, by decide, by decide⟩

/-- C2 amended: in every reachable run state with status complete the rollback
stack is not necessarily empty; it is either empty or exactly the compensation
stack accumulated by the successful provisioning run whose results the state
stores, which completion preserves rather than clears. -/
theorem reachable_complete_rollback_stack_provenance :
    ∀ s : ManifoldState, ReachableRunState s → s.status = "complete" →
      RollbackStackProvenance s := by
  intro s hr _
  exact reachable_provenance s hr

/-- C2 amended witness: the example complete state satisfies the provenance
characterization. -/
theorem reachable_complete_rollback_stack_provenance_witness :
    exampleS7.status = "complete" ∧ RollbackStackProvenance exampleS7 :=
  ⟨by decide,
    reachable_complete_rollback_stack_provenance exampleS7 exampleRunReachable (by decide)⟩

/-- Splitting a concatenation at one element: the element lies in the first
or in the second part. -/
theorem append_split_at_elem {α : Type} {l1 l2 pre post : List α} {x : α}
    (h : l1 ++ l2 = pre ++ x :: post) :
    (∃ mid, l1 = pre ++ x :: mid ∧ post = mid ++ l2) ∨
    (∃ pre2, pre = l1 ++ pre2 ∧ l2 = pre2 ++ x :: post) := by
  induction l1 generalizing pre with
  | nil =>
    right
    exact ⟨pre, rfl, h⟩
  | cons e t ih =>
    cases pre with
    | nil =>
      left
      simp only [List.nil_append, List.cons_append] at h
      injection h with he ht
      exact ⟨t, by simp [he], ht.symm⟩
    | cons p ps =>
      simp only [List.cons_append] at h
      injection h with he ht
      rcases ih ht with ⟨mid, h1, h2⟩ | ⟨pre2, h1, h2⟩
      · left
        exact ⟨mid, by simp [he, h1], h2⟩
      · right
        exact ⟨pre2, by simp [he, h1], h2⟩

/-- A trace segment without push events is trivially justified. -/
theorem segJustifiedFrom_no_push {name : String} {base Δ : List ProvisionEvent}
    (h : ∀ x, ProvisionEvent.push x ∉ Δ) : SegJustifiedFrom name base Δ := by
  intro pre c post hs
  exact absurd (by rw [hs]; exact List.mem_append_right _ (List.mem_cons_self _ _)) (h c)

/-- Justified segments compose: pushes of the second segment may refer to
events of the first. -/
theorem segJustifiedFrom_append {name : String} {base l1 l2 : List ProvisionEvent}
    (h1 : SegJustifiedFrom name base l1) (h2 : SegJustifiedFrom name (base ++ l1) l2) :
    SegJustifiedFrom name base (l1 ++ l2) := by
  intro pre c post hs
  rcases append_split_at_elem hs with ⟨mid, hm1, _⟩ | ⟨pre2, hp1, hp2⟩
  · exact h1 pre c mid hm1
  · have hj := h2 pre2 c post hp2
    rwa [List.append_assoc, ← hp1] at hj

/-- A single push is a justified segment when its justification holds of the
base trace. -/
theorem segJustifiedFrom_push_singleton {name : String} {base : List ProvisionEvent} {c0 : String}
    (hj : PushJustif name c0 base) :
    SegJustifiedFrom name base [ProvisionEvent.push c0] := by
  intro pre c post hs
  cases pre with
  | nil =>
    simp only [List.nil_append] at hs
    injection hs with h1 h2
    injection h1 with h1
    subst h1
    simpa using hj
  | cons e pre2 =>
    simp only [List.cons_append] at hs
    injection hs with h1 h2
    exact absurd h2 (by simp)

/-- Prepending an execution event preserves justification of the rest. -/
theorem segJustifiedFrom_exec_cons {name : String} {base l : List ProvisionEvent} {line : String}
    {ok : Bool} (h : SegJustifiedFrom name (base ++ [.exec line ok]) l) :
    SegJustifiedFrom name base (ProvisionEvent.exec line ok :: l) := by
  intro pre c post hs
  cases pre with
  | nil => simp at hs
  | cons e pre2 =>
    simp only [List.cons_append] at hs
    injection hs with h1 h2
    subst h1
    have hj := h pre2 c post h2
    rwa [List.append_assoc] at hj

/-- The git-repository bootstrap appends only execution events. -/
theorem ensureGitRepository_delta (st : ProvisionState) :
    ∃ Δ, (ensureGitRepository st).2.events = st.events ++ Δ ∧
      (∀ x, ProvisionEvent.push x ∉ Δ) := by
  simp only [ensureGitRepository, pRun, execRaw, pushOutput]
  split_ifs <;>
    (simp only [List.append_assoc]; exact ⟨_, rfl, by simp⟩)

/-- The best-effort initial commit appends only execution events. -/
theorem ensureInitialCommit_delta (st : ProvisionState) :
    ∃ Δ, (ensureInitialCommit st).2.events = st.events ++ Δ ∧
      (∀ x, ProvisionEvent.push x ∉ Δ) := by
  simp only [ensureInitialCommit, pRun, execRaw, pushOutput]
  split_ifs <;>
    (simp only [List.append_assoc]; exact ⟨_, rfl, by simp⟩)

/-- The commit-and-push tail after a creation appends only execution events. -/
theorem pushAfterCreate_delta (fr : String) (stC : ProvisionState) :
    ∃ Δ, (pushAfterCreate fr stC).2.events = stC.events ++ Δ ∧
      (∀ x, ProvisionEvent.push x ∉ Δ) := by
  obtain ⟨Δc, hec, hnc⟩ := ensureInitialCommit_delta stC
  simp only [pushAfterCreate, pRun, execRaw, pushOutput]
  split_ifs <;>
    (rw [hec]; try simp only [List.append_assoc]) <;>
    exact ⟨_, rfl, by intro x; simp [hnc x]⟩

/-- Chaining a justified prefix through the commit-and-push tail. -/
theorem pushAfterCreate_chain {name fr : String} {st0 stC : ProvisionState}
    {Δ1 : List ProvisionEvent}
    (h1 : stC.events = st0.events ++ Δ1) (hs1 : SegJustifiedFrom name st0.events Δ1) :
    ∃ Δ, (pushAfterCreate fr stC).2.events = st0.events ++ Δ ∧
      SegJustifiedFrom name st0.events Δ := by
  obtain ⟨Δ2, he2, hn2⟩ := pushAfterCreate_delta fr stC
  refine ⟨Δ1 ++ Δ2, ?_, segJustifiedFrom_append hs1 ?_⟩
  · rw [he2, h1, List.append_assoc]
  · rw [← h1]
    exact segJustifiedFrom_no_push hn2

/-- The GitHub provisioning step appends a justified trace segment: its only
possible push, the repository deletion, immediately follows the successful
creation execution. -/
theorem ensureGitHubRepo_delta (name : String) (st : ProvisionState) :
    ∃ Δ, (ensureGitHubRepo name st).2.events = st.events ++ Δ ∧
      SegJustifiedFrom name st.events Δ := by
  obtain ⟨Δ0, he0, hn0⟩ := ensureGitRepository_delta st
  simp only [ensureGitHubRepo]
  split
  · next e0 st1 heq =>
      rw [heq] at he0
      exact ⟨Δ0, by simpa using he0, segJustifiedFrom_no_push hn0⟩
  · next u0 st1 heq =>
      rw [heq] at he0
      have he1 : st1.events = st.events ++ Δ0 := by simpa using he0
      simp only [pRun, execRaw, pushOutput, pushComp]
      split_ifs <;>
      first
        | (rw [he1]
           simp only [List.append_assoc, List.cons_append, List.nil_append,
             List.singleton_append]
           exact ⟨_, rfl, segJustifiedFrom_no_push (by intro x; simp [hn0 x])⟩)
        | (apply pushAfterCreate_chain
           · simp only [he1, List.append_assoc, List.cons_append, List.nil_append,
               List.singleton_append]
             rfl
           · refine segJustifiedFrom_append (segJustifiedFrom_no_push hn0) ?_
             refine segJustifiedFrom_exec_cons ?_
             refine segJustifiedFrom_exec_cons ?_
             refine segJustifiedFrom_exec_cons ?_
             refine segJustifiedFrom_push_singleton (Or.inr ⟨_, rfl, ?_⟩)
             rw [List.getLast?_concat]
             simp_all [ghCreateLine])

/-- The link step appends a justified segment, provided a fresh creation was
preceded by a successful project-add execution. -/
theorem vercelLink_delta (name root : String) (created : Bool) (st : ProvisionState)
    (hcreated : created = true → ProvisionEvent.exec (vercelAddLine name) true ∈ st.events) :
    ∃ Δ, (vercelLink name root created st).2.events = st.events ++ Δ ∧
      SegJustifiedFrom name st.events Δ := by
  simp only [vercelLink, pRun, execRaw, pushOutput, pushComp]
  split_ifs with h1 h2
  · simp only [List.append_assoc]
    exact ⟨_, rfl, segJustifiedFrom_no_push (by intro x; simp)⟩
  · simp only [List.append_assoc, List.singleton_append]
    refine ⟨_, rfl, ?_⟩
    refine segJustifiedFrom_exec_cons ?_
    refine segJustifiedFrom_push_singleton ?_
    exact Or.inl ⟨rfl, List.mem_append_left _ (hcreated h2)⟩
  · simp only [List.append_assoc]
    exact ⟨_, rfl, segJustifiedFrom_no_push (by intro x; simp)⟩

/-- Chaining a justified prefix through the link step. -/
theorem vercelLink_chain {name root : String} {created : Bool} {st0 st3 : ProvisionState}
    {Δ1 : List ProvisionEvent}
    (h1 : st3.events = st0.events ++ Δ1) (hs1 : SegJustifiedFrom name st0.events Δ1)
    (hcr : created = true → ProvisionEvent.exec (vercelAddLine name) true ∈ st3.events) :
    ∃ Δ, (vercelLink name root created st3).2.events = st0.events ++ Δ ∧
      SegJustifiedFrom name st0.events Δ := by
  obtain ⟨Δ2, he2, hs2⟩ := vercelLink_delta name root created st3 hcr
  refine ⟨Δ1 ++ Δ2, ?_, segJustifiedFrom_append hs1 ?_⟩
  · rw [he2, h1, List.append_assoc]
  · rw [← h1]
    exact hs2

/-- The Vercel provisioning step appends a justified trace segment: its only
possible push, the project removal, follows a successful project-add
execution (though only after the link step). -/
theorem ensureVercelProject_delta (name root : String) (st : ProvisionState) :
    ∃ Δ, (ensureVercelProject name root st).2.events = st.events ++ Δ ∧
      SegJustifiedFrom name st.events Δ := by
  simp only [ensureVercelProject, pRun, execRaw, pushOutput]
  split_ifs <;>
  first
    | (simp only [List.append_assoc, List.cons_append, List.nil_append, List.singleton_append]
       exact ⟨_, rfl, segJustifiedFrom_no_push (by intro x; simp)⟩)
    | (apply vercelLink_chain
       · simp only [List.append_assoc, List.cons_append, List.nil_append, List.singleton_append]
         rfl
       · exact segJustifiedFrom_no_push (by intro x; simp)
       · intro hcrt
         first
           | exact absurd hcrt (by decide)
           | (by_cases hok : (st.responses.tail.headD { ok := false, output := "" }).ok = true
              · refine List.mem_append_right _ ?_
                rw [hok]
                simp [vercelAddLine]
              · simp_all))

/-- The rollback loop appends only execution events. -/
theorem runRollbackGo_delta (l : List String) :
    ∀ st : ProvisionState, ∃ Δ, (runRollbackGo l st).events = st.events ++ Δ ∧
      (∀ x, ProvisionEvent.push x ∉ Δ) := by
  induction l with
  | nil => intro st; exact ⟨[], by simp [runRollbackGo], by simp⟩
  | cons c rest ih =>
    intro st
    by_cases hc : c = ""
    · simp only [runRollbackGo, hc, if_true, eq_self_iff_true]
      obtain ⟨Δ, he, hn⟩ := ih { st with rollbackStack := st.rollbackStack.dropLast }
      exact ⟨Δ, he, hn⟩
    · simp only [runRollbackGo, if_neg hc, execRaw]
      split
      · obtain ⟨Δ, he, hn⟩ := ih _
        rw [he]
        simp only [pushOutput, List.append_assoc]
        exact ⟨_, rfl, by intro x; simp [hn x]⟩
      · obtain ⟨Δ, he, hn⟩ := ih _
        rw [he]
        simp only [pushOutput, List.append_assoc]
        exact ⟨_, rfl, by intro x; simp [hn x]⟩

/-- Rollback appends only execution events. -/
theorem runRollback_delta (st : ProvisionState) :
    ∃ Δ, (runRollback st).events = st.events ++ Δ ∧ (∀ x, ProvisionEvent.push x ∉ Δ) := by
  unfold runRollback
  exact runRollbackGo_delta _ st

/-- The failure path appends only execution events. -/
theorem provisionFailure_delta (msg : String) (st : ProvisionState) :
    ∃ Δ, (provisionFailure msg st).2.events = st.events ++ Δ ∧
      (∀ x, ProvisionEvent.push x ∉ Δ) := by
  simp only [provisionFailure]
  obtain ⟨Δ, he, hn⟩ := runRollback_delta (pushOutput msg st)
  rw [he]
  simp only [pushOutput]
  exact ⟨Δ, rfl, hn⟩

/-- C3 amended: in every provisioning trace each pushed compensation is
justified by earlier events: the repository deletion is pushed immediately
after the successful repository-creation command, and the hosting-project
removal is pushed only after a successful project-add command has executed
(the push happens after the link step, see the counterexample for the leak
this causes), so the stack never holds a compensation for a resource whose
creation has not succeeded. -/
theorem compensations_pushed_only_after_creation :
    ∀ (root name : String) (w : List CommandResult),
      SegJustified name ((runProvisioning root name w).2.events) := by
  intro root name w
  obtain ⟨Δ1, he1, hs1⟩ := ensureGitHubRepo_delta name (initialProvisionState w)
  unfold SegJustified
  simp only [runProvisioning]
  split
  · next msg st1 heq =>
      rw [heq] at he1
      have he1b : st1.events = Δ1 := by simpa [initialProvisionState] using he1
      obtain ⟨Δ2, he2, hn2⟩ := provisionFailure_delta msg st1
      rw [he2, he1b]
      refine segJustifiedFrom_append ?_ ?_
      · exact hs1
      · exact segJustifiedFrom_no_push hn2
  · next repo st1 heq =>
      rw [heq] at he1
      have he1b : st1.events = Δ1 := by simpa [initialProvisionState] using he1
      obtain ⟨Δv, hev, hsv⟩ := ensureVercelProject_delta name root st1
      rw [he1b] at hsv
      split
      · next msg2 st2 heq2 =>
          rw [heq2] at hev
          have hevb : st2.events = Δ1 ++ Δv := by
            simpa [he1b] using hev
          obtain ⟨Δ3, he3, hn3⟩ := provisionFailure_delta msg2 st2
          rw [he3, hevb, List.append_assoc]
          refine segJustifiedFrom_append hs1 ?_
          refine segJustifiedFrom_append hsv ?_
          exact segJustifiedFrom_no_push hn3
      · next vid st2 heq2 =>
          rw [heq2] at hev
          have hevb : st2.events = Δ1 ++ Δv := by
            simpa [he1b] using hev
          rw [hevb]
          exact segJustifiedFrom_append hs1 hsv

/-- C3 amended witness: the example creation run has a justified trace. -/
theorem compensations_pushed_only_after_creation_witness :
    SegJustified "my-app" ((runProvisioning "/ws/my-app" "my-app" exampleProvisionWorld).2.events) :=
  compensations_pushed_only_after_creation "/ws/my-app" "my-app" exampleProvisionWorld

/-- C3 counterexample: when the hosting project is freshly created but the
subsequent link call fails, the creation succeeded (the add execution is in
the trace) yet its removal compensation was never pushed, the attempt fails,
and the drained rollback stack never contained the compensation, leaking the
created project.  This refutes the claim that every created resource has its
compensation pushed immediately after the creation succeeds. -/
theorem vercel_compensation_missing_after_link_failure :
    ProvisionEvent.exec (vercelAddLine "my-app") true ∈
        (runProvisioning "/ws" "my-app" linkFailureWorld).2.events ∧
      ProvisionEvent.push (vercelRemoveComp "my-app") ∉
        (runProvisioning "/ws" "my-app" linkFailureWorld).2.events ∧
      (runProvisioning "/ws" "my-app" linkFailureWorld).1.ok = false ∧
      (runProvisioning "/ws" "my-app" linkFailureWorld).1.rollbackStack = [] ∧
      (runProvisioning "/ws" "my-app" linkFailureWorld).2.rollbackStack = [] := by decide
